import Mathlib

/-!
Verification of the data-model layer of the MMDVMHost state machine
(`src/mmdvm_statemachine/models.py` and `src/mmdvm_statemachine/config.py`).

Shallow embedding conventions:
* `datetime` values are modelled as integer timestamps (seconds on a global
  timeline); `datetime` subtraction (`timedelta.total_seconds()`) becomes
  integer subtraction.
* `UUID` is modelled as `Nat` (only equality of identifiers is ever used).
* Methods that mutate `self` become pure functions from the old value to the
  new value; methods that read the ambient clock (`datetime.now()`) take the
  current time as an explicit argument.
* Pydantic validators that `raise ValueError` become functions into
  `Except String`.
* The float-typed quality metrics `ber` / `loss_rate` and the open
  `metadata` dict of `QSO` are not modelled: no operation verified here
  reads or writes them.
-/

/-- Operating modes supported by MMDVMHost (`models.py`, class `Mode`). -/
inductive Mode where
  | DSTAR | DMR | YSF | P25 | NXDN | POCSAG | FM | IDLE
deriving DecidableEq, Repr

/-- QSO lifecycle states (`models.py`, class `QSOStatus`). -/
inductive QSOStatus where
  | STARTING | ACTIVE | ENDING | COMPLETED | TIMEOUT | ERROR
deriving DecidableEq, Repr

/-- Modem hardware state (`models.py`, class `ModemState`). -/
inductive ModemState where
  | IDLE | RX | TX | ERROR | UNKNOWN
deriving DecidableEq, Repr

/-- Network connection status per mode (`models.py`, class `NetworkStatus`). -/
inductive NetworkStatus where
  | CONNECTED | DISCONNECTED | CONNECTING | ERROR | UNKNOWN
deriving DecidableEq, Repr

/-- A single QSO record (`models.py`, class `QSO`).  Fields follow the
Pydantic model; times are integer timestamps, the id is a `Nat`. -/
structure QSO where
  id : Nat
  start_time : Int
  end_time : Option Int := none
  duration_seconds : Option Int := none
  mode : Mode
  status : QSOStatus := QSOStatus.STARTING
  source_callsign : Option String := none
  destination : Option String := none
  slot : Option Int := none
  talk_group : Option Int := none
  source_id : Option Int := none
  destination_id : Option Int := none
  reflector : Option String := none
  rssi : Option Int := none
  rf_source : Bool := true
deriving DecidableEq, Repr

namespace QSO

/-- `QSO.complete` (`models.py` lines 138-148): set `end_time` (the Python
default `end_time or datetime.now()` is resolved by the caller into the
argument `t`), compute `duration_seconds = end_time - start_time`, and set
the status to COMPLETED.  The source performs no clamping and no check that
the QSO is still active. -/
def complete (q : QSO) (t : Int) : QSO :=
  { q with
    end_time := some t
    duration_seconds := some (t - q.start_time)
    status := QSOStatus.COMPLETED }

/-- `QSO.is_active` (`models.py` lines 150-157):
`self.status in (QSOStatus.STARTING, QSOStatus.ACTIVE)`. -/
def is_active (q : QSO) : Bool :=
  q.status = QSOStatus.STARTING || q.status = QSOStatus.ACTIVE

/-- A status is terminal when it is COMPLETED, TIMEOUT or ERROR. -/
def isTerminal (s : QSOStatus) : Bool :=
  s = QSOStatus.COMPLETED || s = QSOStatus.TIMEOUT || s = QSOStatus.ERROR

end QSO

/-- Status information for one mode (`models.py`, class `ModeStatus`). -/
structure ModeStatus where
  mode : Mode
  enabled : Bool := true
  network_status : NetworkStatus := NetworkStatus.UNKNOWN
  network_name : Option String := none
  last_activity : Option Int := none
deriving DecidableEq, Repr

/-- Complete system state snapshot (`models.py`, class `SystemState`).
The `mode_status` dict is modelled as an association list. -/
structure SystemState where
  current_mode : Mode := Mode.IDLE
  modem_state : ModemState := ModemState.UNKNOWN
  active_qsos : List QSO := []
  mode_status : List (Mode × ModeStatus) := []
  last_update : Int
  uptime_seconds : Option Int := none
  error_count : Int := 0
  last_error : Option String := none
  last_error_time : Option Int := none
deriving DecidableEq, Repr

namespace SystemState

/-- `SystemState.add_active_qso` (`models.py` lines 215-223): append the QSO
to `active_qsos` (no duplicate check in the source) and stamp `last_update`
with the current time `t`. -/
def add_active_qso (s : SystemState) (q : QSO) (t : Int) : SystemState :=
  { s with active_qsos := s.active_qsos ++ [q], last_update := t }

/-- The scan of `remove_active_qso`'s `for i, qso in enumerate(...)` loop:
find the first element with the given id, returning it together with the
list with that element popped. -/
def removeFirstById : List QSO → Nat → Option (QSO × List QSO)
  | [], _ => none
  | q :: rest, i =>
      if q.id = i then some (q, rest)
      else match removeFirstById rest i with
        | none => none
        | some (r, l) => some (r, q :: l)

/-- `SystemState.remove_active_qso` (`models.py` lines 225-240): pop the first
QSO whose id matches and stamp `last_update` with the current time `t`; when
no QSO matches, return `None` and leave the state untouched. -/
def remove_active_qso (s : SystemState) (i : Nat) (t : Int) :
    Option QSO × SystemState :=
  match removeFirstById s.active_qsos i with
  | none => (none, s)
  | some (q, l) => (some q, { s with active_qsos := l, last_update := t })

/-- The scan of `get_active_qso_by_id`'s loop: first QSO with the given id. -/
def findById : List QSO → Nat → Option QSO
  | [], _ => none
  | q :: rest, i => if q.id = i then some q else findById rest i

/-- `SystemState.get_active_qso_by_id` (`models.py` lines 242-255): return the
first active QSO whose id matches, or `None`; the method writes no field, so
its embedding returns the state unchanged alongside the result. -/
def get_active_qso_by_id (s : SystemState) (i : Nat) :
    Option QSO × SystemState :=
  (findById s.active_qsos i, s)

/-- `SystemState.record_error` (`models.py` lines 257-267): increment
`error_count`, store the message, stamp `last_error_time` and `last_update`
with the current time `t`.  The method is a plain sequence of assignments
and cannot fail, so its embedding is total. -/
def record_error (s : SystemState) (m : String) (t : Int) : SystemState :=
  { s with
    error_count := s.error_count + 1
    last_error := some m
    last_error_time := some t
    last_update := t }

end SystemState

/-- One mutating `SystemState` operation, paired at run time with the clock
value observed by the `datetime.now()` calls inside it. -/
inductive Cmd where
  | addQso (q : QSO)
  | removeQso (i : Nat)
  | recordErr (m : String)
deriving DecidableEq, Repr

/-- Apply one command at clock time `t`. -/
def applyCmd (c : Cmd) (t : Int) (s : SystemState) : SystemState :=
  match c with
  | Cmd.addQso q => s.add_active_qso q t
  | Cmd.removeQso i => (s.remove_active_qso i t).2
  | Cmd.recordErr m => s.record_error m t

/-- Run a sequence of timestamped commands from a starting state. -/
def runCmds : List (Cmd × Int) → SystemState → SystemState
  | [], s => s
  | (c, t) :: rest, s => runCmds rest (applyCmd c t s)

/-- The `SystemState()` Pydantic defaults (`models.py` lines 174-213), with
`last_update` stamped by its `default_factory=datetime.now` at time `t0`. -/
def initialState (t0 : Int) : SystemState :=
  { last_update := t0 }

/-- Along a run, every `addQso` command adds an id that is fresh for the
active list at the moment of the call. -/
def freshRun : List (Cmd × Int) → SystemState → Bool
  | [], _ => true
  | (c, t) :: rest, s =>
      (match c with
       | Cmd.addQso q => decide (∀ p ∈ s.active_qsos, p.id ≠ q.id)
       | _ => true) && freshRun rest (applyCmd c t s)

/-- Pydantic validator `StateMachineConfig.validate_history_size`
(`config.py` lines 62-68): reject values outside `[1, 10000]`. -/
def validate_history_size (v : Int) : Except String Int :=
  if v < 1 || v > 10000 then
    Except.error "qso_history_size must be between 1 and 10000"
  else
    Except.ok v

/-- Pydantic validator `StateMachineConfig.validate_timeout`
(`config.py` lines 70-76): reject values outside `[1, 3600]`. -/
def validate_timeout (v : Int) : Except String Int :=
  if v < 1 || v > 3600 then
    Except.error "qso_timeout_seconds must be between 1 and 3600"
  else
    Except.ok v

/-- Modelled from the spec: the bounded completed-QSO history of
SystemStateStore.  `src/` contains only the data models; the store component
that owns "a bounded FIFO of completed/timed-out/errored QSOs (capacity =
configured history size; oldest evicted first on overflow)" is not among the
source files, so its insertion step is modelled from those spec words: new
entries are appended at the tail, and when the history is already at
capacity the head (oldest inserted) is evicted first. -/
def pushHistory (cap : Nat) (h : List QSO) (q : QSO) : List QSO :=
  if h.length < cap then h ++ [q] else h.tail ++ [q]

/-- Modelled from the spec: finalizing a batch of QSOs into the history is
folding the insertion step over them in order. -/
def pushHistoryAll (cap : Nat) (h : List QSO) (qs : List QSO) : List QSO :=
  qs.foldl (pushHistory cap) h

/-! ## Concrete inputs used by counterexamples and witnesses -/

/-- A fresh QSO whose transmission started at time 5. -/
def qAt5 : QSO := { id := 1, start_time := 5, mode := Mode.DMR }

/-- A QSO sitting in the transient ENDING state. -/
def qEnding : QSO :=
  { id := 2, start_time := 0, mode := Mode.DMR, status := QSOStatus.ENDING }

/-- An already-completed (terminal) QSO with recorded end time and duration. -/
def qDone : QSO :=
  { id := 3, start_time := 2, end_time := some 7, duration_seconds := some 5,
    mode := Mode.YSF, status := QSOStatus.COMPLETED }

/-! ## C1 -/

/-- C1 counterexample: completing a QSO that started at time 5 with end time 3
stores `duration_seconds = -2`; the source does not clamp the duration to be
non-negative, refuting the claimed `max (end - start) 0` behaviour. -/
theorem complete_not_clamped_cex :
    (qAt5.complete 3).duration_seconds = some (-2) ∧
    ¬ ((-2 : Int) = max ((3 : Int) - 5) 0) := by
  decide

/-- C1 (amended): completing a QSO with end time `t` sets `end_time := t`,
`duration_seconds := t - start_time` with NO clamping (the stored duration is
negative whenever `t < start_time`), and `status := COMPLETED`, while leaving
the identifying fields untouched; every call to `complete` (re)assigns the
duration, so it is assigned exactly once only if `complete` is called once. -/
theorem complete_sets_end_time_duration_status (q : QSO) (t : Int) :
    (q.complete t).end_time = some t ∧
    (q.complete t).duration_seconds = some (t - q.start_time) ∧
    (q.complete t).status = QSOStatus.COMPLETED ∧
    (q.complete t).id = q.id ∧
    (q.complete t).start_time = q.start_time ∧
    (q.complete t).mode = q.mode ∧
    (q.complete t).source_callsign = q.source_callsign ∧
    (q.complete t).destination = q.destination := by
  exact ⟨rfl, rfl, rfl, rfl, rfl, rfl, rfl, rfl⟩

/-! ## C4 -/

/-- C4 counterexample: a QSO in status ENDING is NOT reported active by
`QSO.is_active`, refuting the claim that the active statuses are
STARTING, ACTIVE and ENDING. -/
theorem ending_not_active_cex :
    ¬ (qEnding.is_active = true ↔
        (qEnding.status = QSOStatus.STARTING ∨
         qEnding.status = QSOStatus.ACTIVE ∨
         qEnding.status = QSOStatus.ENDING)) := by
  decide

/-- C4 (amended): `QSO.is_active` returns true exactly when the status is
STARTING or ACTIVE; ENDING is not treated as active by the code. -/
theorem is_active_iff_starting_or_active (q : QSO) :
    q.is_active = true ↔
      (q.status = QSOStatus.STARTING ∨ q.status = QSOStatus.ACTIVE) := by
  simp [QSO.is_active]

/-! ## C5 -/

/-- C5 counterexample: re-calling `complete` on an already COMPLETED QSO is
not a no-op: both `end_time` and `duration_seconds` change. -/
theorem refinalize_not_noop_cex :
    QSO.isTerminal qDone.status = true ∧
    (qDone.complete 10).end_time ≠ qDone.end_time ∧
    (qDone.complete 10).duration_seconds ≠ qDone.duration_seconds := by
  decide

/-- C5 (amended): re-calling `QSO.complete` on a terminal QSO is not a no-op:
it unconditionally overwrites `end_time` with the new end time and
`duration_seconds` with the newly computed difference, and forces the status
to COMPLETED (so a TIMEOUT or ERROR QSO is silently relabelled COMPLETED). -/
theorem complete_overwrites_terminal (q : QSO) (t : Int)
    (h : QSO.isTerminal q.status = true) :
    (q.complete t).status = QSOStatus.COMPLETED ∧
    (q.complete t).end_time = some t ∧
    (q.complete t).duration_seconds = some (t - q.start_time) := by
  exact ⟨rfl, rfl, rfl⟩

/-- Witness for C5: the amended statement evaluated on the concrete
terminal QSO `qDone` at end time 10. -/
theorem complete_overwrites_terminal_witness :
    (qDone.complete 10).status = QSOStatus.COMPLETED ∧
    (qDone.complete 10).end_time = some 10 ∧
    (qDone.complete 10).duration_seconds = some 8 := by
  exact complete_overwrites_terminal qDone 10 (by decide)

/-! ## C6 -/

/-- C6: `record_error` increments `error_count` by exactly one, stores the
message and the current time, stamps `last_update`, and leaves every other
field unchanged; its embedding is a total function (the Python body is a
straight-line sequence of assignments and cannot raise). -/
theorem record_error_spec (s : SystemState) (m : String) (t : Int) :
    (s.record_error m t).error_count = s.error_count + 1 ∧
    (s.record_error m t).last_error = some m ∧
    (s.record_error m t).last_error_time = some t ∧
    (s.record_error m t).last_update = t ∧
    (s.record_error m t).current_mode = s.current_mode ∧
    (s.record_error m t).modem_state = s.modem_state ∧
    (s.record_error m t).active_qsos = s.active_qsos ∧
    (s.record_error m t).mode_status = s.mode_status ∧
    (s.record_error m t).uptime_seconds = s.uptime_seconds := by
  exact ⟨rfl, rfl, rfl, rfl, rfl, rfl, rfl, rfl, rfl⟩

/-! ## C2 -/

/-- If every element of the list misses the id, the removal scan finds
nothing. -/
theorem removeFirstById_eq_none_of_not_mem (l : List QSO) (i : Nat)
    (h : ∀ p ∈ l, p.id ≠ i) : SystemState.removeFirstById l i = none := by
  induction l with
  | nil => rfl
  | cons q rest ih =>
      have hq : q.id ≠ i := h q (List.mem_cons_self q rest)
      have hrest : SystemState.removeFirstById rest i = none :=
        ih fun p hp => h p (List.mem_cons_of_mem q hp)
      simp [SystemState.removeFirstById, hq, hrest]

/-- The list left behind by the removal scan is a sublist of the input. -/
theorem removeFirstById_sublist (l : List QSO) (i : Nat) (q : QSO)
    (l' : List QSO) (h : SystemState.removeFirstById l i = some (q, l')) :
    List.Sublist l' l := by
  induction l generalizing q l' with
  | nil => simp [SystemState.removeFirstById] at h
  | cons p rest ih =>
      by_cases hp : p.id = i
      · simp [SystemState.removeFirstById, hp] at h
        rw [← h.2]
        exact List.sublist_cons_self p rest
      · simp only [SystemState.removeFirstById, hp, if_false] at h
        cases hrec : SystemState.removeFirstById rest i with
        | none => rw [hrec] at h; simp at h
        | some pr =>
            obtain ⟨r, l₂⟩ := pr
            rw [hrec] at h
            simp at h
            obtain ⟨h1, h2⟩ := h
            rw [← h2]
            exact List.Sublist.cons₂ p (ih r l₂ hrec)

/-- C2 counterexample: adding the same QSO twice through `add_active_qso`
(the source performs no duplicate check) leaves two entries with the same
identifier in `active_qsos`, refuting the unconditional uniqueness claim. -/
theorem duplicate_add_breaks_nodup_cex :
    ¬ ((runCmds [(Cmd.addQso qAt5, 1), (Cmd.addQso qAt5, 2)]
          (initialState 0)).active_qsos.map QSO.id).Nodup := by
  decide

/-- Applying one command preserves distinctness of active ids, provided an
added QSO's id is fresh. -/
theorem applyCmd_preserves_nodup (c : Cmd) (t : Int) (s : SystemState)
    (hnd : (s.active_qsos.map QSO.id).Nodup)
    (hfresh : ∀ q, c = Cmd.addQso q → ∀ p ∈ s.active_qsos, p.id ≠ q.id) :
    ((applyCmd c t s).active_qsos.map QSO.id).Nodup := by
  cases c with
  | addQso q =>
      have hf := hfresh q rfl
      simp only [applyCmd, SystemState.add_active_qso, List.map_append,
        List.map_cons, List.map_nil]
      rw [List.nodup_append]
      refine ⟨hnd, List.nodup_singleton _, ?_⟩
      intro a ha hb
      simp only [List.mem_singleton] at hb
      simp only [List.mem_map] at ha
      obtain ⟨p, hp, hpa⟩ := ha
      exact hf p hp (hpa.trans hb)
  | removeQso i =>
      simp only [applyCmd, SystemState.remove_active_qso]
      cases hrem : SystemState.removeFirstById s.active_qsos i with
      | none => simpa using hnd
      | some ql =>
          have hsub : List.Sublist ql.2 s.active_qsos :=
            removeFirstById_sublist s.active_qsos i ql.1 ql.2 (by rw [hrem])
          simpa using List.Nodup.sublist (List.Sublist.map QSO.id hsub) hnd
  | recordErr m =>
      simpa [applyCmd, SystemState.record_error] using hnd

/-- C2 (amended): along any run of `add_active_qso` / `remove_active_qso` /
`record_error` in which every added QSO carries an id not already present in
the active list at the moment of the call, the active-QSO ids stay pairwise
distinct; `add_active_qso` itself performs no duplicate check, so the
unconditional claim fails (see the counterexample) and freshness of added
ids is exactly the hypothesis needed. -/
theorem active_ids_nodup_of_fresh (cmds : List (Cmd × Int))
    (s : SystemState) (hnd : (s.active_qsos.map QSO.id).Nodup)
    (hfresh : freshRun cmds s = true) :
    ((runCmds cmds s).active_qsos.map QSO.id).Nodup := by
  induction cmds generalizing s with
  | nil => exact hnd
  | cons ct rest ih =>
      obtain ⟨c, t⟩ := ct
      simp only [freshRun, Bool.and_eq_true] at hfresh
      refine ih (applyCmd c t s) ?_ hfresh.2
      refine applyCmd_preserves_nodup c t s hnd ?_
      intro q hq p hp
      subst hq
      have := hfresh.1
      simpa using of_decide_eq_true this p hp

/-- Witness for C2: a run adding two QSOs with distinct fresh ids, starting
from the empty initial state, keeps the active ids distinct. -/
theorem active_ids_nodup_of_fresh_witness :
    (((runCmds [(Cmd.addQso qAt5, 1), (Cmd.addQso qEnding, 2)]
        (initialState 0))).active_qsos.map QSO.id).Nodup :=
  active_ids_nodup_of_fresh
    [(Cmd.addQso qAt5, 1), (Cmd.addQso qEnding, 2)]
    (initialState 0) (by decide) (by decide)

/-! ## C7 -/

/-- C7: each mutating operation, run at a clock time `t` no earlier than the
state's current `last_update` (the monotone-clock hypothesis), leaves
`last_update` greater than or equal to its previous value; in particular a
failed removal leaves it unchanged and every other operation stamps it
with `t`. -/
theorem last_update_monotone_step (s : SystemState) (c : Cmd) (t : Int)
    (h : s.last_update ≤ t) :
    s.last_update ≤ (applyCmd c t s).last_update := by
  cases c with
  | addQso q => exact h
  | removeQso i =>
      simp only [applyCmd, SystemState.remove_active_qso]
      cases SystemState.removeFirstById s.active_qsos i with
      | none => exact le_refl _
      | some ql => exact h
  | recordErr m => exact h

/-- Witness for C7: a concrete `record_error` call at a later clock time. -/
theorem last_update_monotone_step_witness :
    (initialState 0).last_update ≤
      (applyCmd (Cmd.recordErr "boom") 4 (initialState 0)).last_update :=
  last_update_monotone_step (initialState 0) (Cmd.recordErr "boom") 4
    (by decide)

/-! ## C3 -/

/-- One history insertion keeps the length within capacity. -/
theorem pushHistory_length_le (cap : Nat) (h : List QSO) (q : QSO)
    (hcap : 1 ≤ cap) (hlen : h.length ≤ cap) :
    (pushHistory cap h q).length ≤ cap := by
  unfold pushHistory
  by_cases hlt : h.length < cap
  · simp [hlt]
    omega
  · simp [hlt, List.length_tail]
    omega

/-- C3: the spec-modelled bounded history never exceeds its capacity along
any sequence of finalizations (given capacity at least 1, as the
configuration validator guarantees, and a starting history within
capacity), and when the history is exactly at capacity an insertion evicts
the head - the oldest inserted entry - keeping the length at capacity. -/
theorem history_bounded_fifo (cap : Nat) (h : List QSO) (qs : List QSO)
    (hcap : 1 ≤ cap) (hlen : h.length ≤ cap) :
    (pushHistoryAll cap h qs).length ≤ cap ∧
    (∀ q, h.length = cap →
      pushHistory cap h q = h.drop 1 ++ [q] ∧
      (pushHistory cap h q).length = cap) := by
  constructor
  · induction qs generalizing h with
    | nil => exact hlen
    | cons q rest ih =>
        exact ih (pushHistory cap h q)
          (pushHistory_length_le cap h q hcap hlen)
  · intro q hfull
    have hnlt : ¬ h.length < cap := by omega
    unfold pushHistory
    simp [hnlt, List.drop_one, List.length_tail]
    omega

/-- Witness for C3: capacity 2, a full history of two QSOs, one more
finalization; the bound holds and the eviction clause applies to `qDone`. -/
theorem history_bounded_fifo_witness :
    (pushHistoryAll 2 [qAt5, qEnding] [qDone]).length ≤ 2 ∧
    (∀ q, ([qAt5, qEnding] : List QSO).length = 2 →
      pushHistory 2 [qAt5, qEnding] q = [qEnding, q] ∧
      (pushHistory 2 [qAt5, qEnding] q).length = 2) := by
  have hmain := history_bounded_fifo 2 [qAt5, qEnding] [qDone]
    (by decide) (by decide)
  exact ⟨hmain.1, fun q hq => by simpa using hmain.2 q hq⟩

/-! ## C8 -/

/-- The history-size validator, rephrased as a case split on the accepted
range. -/
theorem validate_history_size_eq_ite (v : Int) :
    validate_history_size v =
      if 1 ≤ v ∧ v ≤ 10000 then Except.ok v
      else Except.error "qso_history_size must be between 1 and 10000" := by
  simp only [validate_history_size]
  by_cases hin : 1 ≤ v ∧ v ≤ 10000
  · rw [if_pos hin, if_neg]
    simp only [Bool.or_eq_true, decide_eq_true_eq]
    omega
  · rw [if_neg hin, if_pos]
    simp only [Bool.or_eq_true, decide_eq_true_eq]
    omega

/-- The timeout validator, rephrased as a case split on the accepted
range. -/
theorem validate_timeout_eq_ite (v : Int) :
    validate_timeout v =
      if 1 ≤ v ∧ v ≤ 3600 then Except.ok v
      else Except.error "qso_timeout_seconds must be between 1 and 3600" := by
  simp only [validate_timeout]
  by_cases hin : 1 ≤ v ∧ v ≤ 3600
  · rw [if_pos hin, if_neg]
    simp only [Bool.or_eq_true, decide_eq_true_eq]
    omega
  · rw [if_neg hin, if_pos]
    simp only [Bool.or_eq_true, decide_eq_true_eq]
    omega

/-- C8: the configuration validators accept `qso_history_size` exactly on
`[1, 10000]` and `qso_timeout_seconds` exactly on `[1, 3600]`; outside the
range they produce the validation error (so no validated value, hence no
`Config` object, is produced). -/
theorem validators_accept_iff_in_range (v : Int) :
    (validate_history_size v = Except.ok v ↔ 1 ≤ v ∧ v ≤ 10000) ∧
    (validate_timeout v = Except.ok v ↔ 1 ≤ v ∧ v ≤ 3600) ∧
    (¬ (1 ≤ v ∧ v ≤ 10000) →
      validate_history_size v =
        Except.error "qso_history_size must be between 1 and 10000") ∧
    (¬ (1 ≤ v ∧ v ≤ 3600) →
      validate_timeout v =
        Except.error "qso_timeout_seconds must be between 1 and 3600") := by
  refine ⟨?_, ?_, fun hout => ?_, fun hout => ?_⟩ <;>
    simp only [validate_history_size_eq_ite, validate_timeout_eq_ite] <;>
    split_ifs with hin <;> simp_all

/-- Witness for C8: the two rejection clauses evaluated at the concrete
out-of-range value 0 (the acceptance clauses are biconditionals with no
hypothesis; 0 is outside both ranges). -/
theorem validators_accept_iff_in_range_witness :
    validate_history_size 0 =
      Except.error "qso_history_size must be between 1 and 10000" ∧
    validate_timeout 0 =
      Except.error "qso_timeout_seconds must be between 1 and 3600" :=
  ⟨(validators_accept_iff_in_range 0).2.2.1 (by decide),
   (validators_accept_iff_in_range 0).2.2.2 (by decide)⟩

/-! ## C9 -/

/-- The removal scan on a list split around the first matching element
pops exactly that element. -/
theorem removeFirstById_of_split (l₁ : List QSO) (q : QSO) (l₂ : List QSO)
    (i : Nat) (hmiss : ∀ p ∈ l₁, p.id ≠ i) (hq : q.id = i) :
    SystemState.removeFirstById (l₁ ++ q :: l₂) i = some (q, l₁ ++ l₂) := by
  induction l₁ with
  | nil => simp [SystemState.removeFirstById, hq]
  | cons p rest ih =>
      have hp : p.id ≠ i := hmiss p (List.mem_cons_self p rest)
      have hrec := ih fun r hr => hmiss r (List.mem_cons_of_mem p hr)
      simp [SystemState.removeFirstById, hp, hrec]

/-- C9: `remove_active_qso` is atomic on failure - when no active QSO has
the requested id it returns `None` and the whole state (including
`last_update`) is unchanged; when a match exists, exactly the first
matching QSO is removed and returned, the remaining active QSOs keep their
order, and every other field except `last_update` is unchanged. -/
theorem remove_active_qso_spec (s : SystemState) (i : Nat) (t : Int) :
    ((∀ p ∈ s.active_qsos, p.id ≠ i) →
      s.remove_active_qso i t = (none, s)) ∧
    (∀ q l₁ l₂, s.active_qsos = l₁ ++ q :: l₂ →
      (∀ p ∈ l₁, p.id ≠ i) → q.id = i →
      s.remove_active_qso i t =
        (some q, { s with active_qsos := l₁ ++ l₂, last_update := t })) := by
  constructor
  · intro hmiss
    simp [SystemState.remove_active_qso,
      removeFirstById_eq_none_of_not_mem s.active_qsos i hmiss]
  · intro q l₁ l₂ hsplit hmiss hq
    simp [SystemState.remove_active_qso, hsplit,
      removeFirstById_of_split l₁ q l₂ i hmiss hq]

/-- Witness for C9: on a state holding `qAt5` and `qEnding`, removing an
absent id 99 changes nothing, and removing id 2 pops exactly `qEnding`. -/
theorem remove_active_qso_spec_witness :
    ({ last_update := 0, active_qsos := [qAt5, qEnding] } :
        SystemState).remove_active_qso 99 5 =
      (none, { last_update := 0, active_qsos := [qAt5, qEnding] }) ∧
    ({ last_update := 0, active_qsos := [qAt5, qEnding] } :
        SystemState).remove_active_qso 2 5 =
      (some qEnding, { last_update := 5, active_qsos := [qAt5] }) := by
  refine ⟨(remove_active_qso_spec _ 99 5).1 (by decide), ?_⟩
  have := (remove_active_qso_spec
    ({ last_update := 0, active_qsos := [qAt5, qEnding] } : SystemState)
    2 5).2 qEnding [qAt5] [] (by rfl) (by decide) (by decide)
  simpa using this

/-! ## C10 -/

/-- The lookup loop computes `List.find?` on the id predicate. -/
theorem findById_eq_find (l : List QSO) (i : Nat) :
    SystemState.findById l i = l.find? (fun q => q.id == i) := by
  induction l with
  | nil => rfl
  | cons q rest ih =>
      simp only [SystemState.findById]
      by_cases hq : q.id = i
      · rw [if_pos hq, List.find?_cons_of_pos _ (by simp [hq])]
      · rw [if_neg hq, List.find?_cons_of_neg _ (by simp [hq]), ih]

/-- C10: `get_active_qso_by_id` is a pure read - it returns the first active
QSO whose id matches (`List.find?` on the id) or `None`, and the state
component of its embedding is exactly the input state: no field, including
`last_update`, is modified. -/
theorem get_active_qso_by_id_spec (s : SystemState) (i : Nat) :
    (s.get_active_qso_by_id i).2 = s ∧
    (s.get_active_qso_by_id i).1 =
      s.active_qsos.find? (fun q => q.id == i) :=
  ⟨rfl, findById_eq_find s.active_qsos i⟩
